import Mathlib

/-!
Verification of the conversation-state machine and prompt-assembly pipeline of
the Influence repository (src/app.py), a Streamlit application driving a
three-stage role-play exercise: scenario design, simulation, evaluation.

The embedding models Python strings as `List Char` and reproduces the Python
string primitives the code uses (`strip`, `split`, `replace`, the substring
containment test), the mutable Streamlit session state as a `Session`
structure, and each user-triggered branch of `main()` as a state-transition
function.  The language-model backend is the opaque gateway boundary: each
transition takes the gateway reply (or a reply oracle keyed on the
conversation context it is invoked with) as a parameter.
-/

/-! ## Python string primitives -/

/-- Python whitespace test for `str.strip` (ASCII range, which is all the
code ever feeds it). -/
def pyIsSpace (c : Char) : Bool :=
  c = ' ' || c = '\t' || c = '\n' || c = '\r' || c = '\x0b' || c = '\x0c'

/-- Python `str.strip()`: drop whitespace from both ends. -/
def pyStrip (s : List Char) : List Char :=
  ((s.dropWhile pyIsSpace).reverse.dropWhile pyIsSpace).reverse

/-- `startsWithSeq pat s` is Python `s.startswith(pat)`. -/
def startsWithSeq : List Char → List Char → Bool
  | [], _ => true
  | _ :: _, [] => false
  | p :: ps, c :: cs => if p = c then startsWithSeq ps cs else false

/-- Scan for the first occurrence of `pat`: returns the text before it and
the text after it, or `none` when `pat` does not occur.  (For nonempty
`pat`, which is the only way the code uses it.) -/
def findSplit (pat : List Char) : List Char → Option (List Char × List Char)
  | [] => none
  | c :: rest =>
    if startsWithSeq pat (c :: rest) then
      some ([], (c :: rest).drop pat.length)
    else
      match findSplit pat rest with
      | some (b, a) => some (c :: b, a)
      | none => none

/-- Fuel-driven worker for `pySplit`; the fuel bounds the number of
separator occurrences, which never exceeds the length of the string. -/
def splitOnAux (pat : List Char) : Nat → List Char → List (List Char)
  | 0, s => [s]
  | f + 1, s =>
    match findSplit pat s with
    | none => [s]
    | some (b, a) => b :: splitOnAux pat f a

/-- Python `s.split(pat)` for nonempty `pat`: non-overlapping occurrences,
scanned left to right. -/
def pySplit (s pat : List Char) : List (List Char) :=
  splitOnAux pat s.length s

/-- Fuel-driven worker for `pyReplace`. -/
def replaceAux (old new : List Char) : Nat → List Char → List Char
  | 0, s => s
  | f + 1, s =>
    match findSplit old s with
    | none => s
    | some (b, a) => b ++ new ++ replaceAux old new f a

/-- Python `s.replace(old, new)` for nonempty `old`: rewrite every
non-overlapping occurrence, scanning left to right. -/
def pyReplace (s old new : List Char) : List Char :=
  replaceAux old new s.length s

/-- Python `sub in s` for nonempty `sub`. -/
def pyContains (s sub : List Char) : Bool :=
  (findSplit sub s).isSome

/-! ## ScenarioDesignStage response parse (src/app.py lines 114-123) -/

def rubricDelim : List Char := "EVALUATION_RUBRIC:".toList

def scenarioLabel : List Char := "SCENARIO:".toList

def noRubricSentinel : List Char := "No rubric found.".toList

/-- The parse step of `call_scenario_designer` (src/app.py lines 114-123):

    if "EVALUATION_RUBRIC:" in text_out:
        parts = text_out.split("EVALUATION_RUBRIC:")
        scenario_part = parts[0].replace("SCENARIO:", "").strip()
        rubric_part = parts[1].strip()
    else:
        scenario_part = text_out.strip()
        rubric_part = "No rubric found."

`parts[1]` exists whenever the delimiter occurs, so the `getD` defaults are
never taken. -/
def parseDesignerResponse (textOut : List Char) : List Char × List Char :=
  if pyContains textOut rubricDelim then
    let parts := pySplit textOut rubricDelim
    (pyStrip (pyReplace (parts.getD 0 []) scenarioLabel []),
     pyStrip (parts.getD 1 []))
  else
    (pyStrip textOut, noRubricSentinel)

/-! ## Positional first-occurrence characterisation, used to state the
parse theorem independently of the scanning recursion. -/

/-- True when `pat` occurs in `s` at index `i`. -/
def occursAt (pat s : List Char) (i : Nat) : Bool :=
  startsWithSeq pat (s.drop i)

/-- Index of the first occurrence of `pat` in `s`, by a plain scan over all
indices. -/
def firstOcc? (pat s : List Char) : Option Nat :=
  (List.range s.length).find? (occursAt pat s)

example :
    parseDesignerResponse ("SCENARIO: Foo\nEVALUATION_RUBRIC:\nBar".toList)
      = ("Foo".toList, "Bar".toList) := by decide

example :
    parseDesignerResponse ("Just a scenario.".toList)
      = ("Just a scenario.".toList, noRubricSentinel) := by decide

/-! ## Data model (src/app.py lines 16-25 and the message dictionaries) -/

/-- The `role` field of a simulation message: `"user"` or `"assistant"`. -/
inductive Role where
  | user
  | assistant
deriving DecidableEq

/-- One entry of `st.session_state["simulation_messages"]`. -/
structure Turn where
  role : Role
  content : List Char
deriving DecidableEq

/-- The five `st.session_state` keys initialised at src/app.py lines 16-25. -/
structure Session where
  scenario_output : Option (List Char)
  evaluation_rubric : Option (List Char)
  simulation_messages : List Turn
  evaluation_feedback : Option (List Char)
  simulation_finished : Bool
deriving DecidableEq

/-- The initial session state (src/app.py lines 16-25). -/
def initialSession : Session :=
  { scenario_output := none
  , evaluation_rubric := none
  , simulation_messages := []
  , evaluation_feedback := none
  , simulation_finished := false }

/-- Gateway failure kinds at the model-backend boundary. -/
inductive GatewayError where
  | auth
  | rateLimit
  | timeout
  | malformedResponse
  | unknown
deriving DecidableEq

/-- Outcome surfaced to the user for one event: either the blank-move
rejection (src/app.py line 216 warning) or a gateway failure. -/
inductive AppError where
  | validation
  | gateway (e : GatewayError)
deriving DecidableEq

/-- Result of dispatching one event: the session afterwards, the surfaced
outcome, and how many gateway invocations the event made. -/
structure StepOut where
  session : Session
  outcome : Except AppError Unit
  gwCalls : Nat

/-! ## Conversation-context assembly

The two identical loops at src/app.py lines 222-226 (before the facilitator
call) and lines 249-253 (before the evaluator call):

    conversation_text = ""
    for m in st.session_state["simulation_messages"]:
        role_label = "USER" if m["role"] == "user" else "FACILITATOR"
        conversation_text += f"{role_label}: {m['content']}\n"
-/

/-- `"USER" if m["role"] == "user" else "FACILITATOR"`. -/
def roleLabel (r : Role) : List Char :=
  match r with
  | Role.user => "USER".toList
  | Role.assistant => "FACILITATOR".toList

/-- The loop at src/app.py lines 222-226 (SimulationStage). -/
def simulationConversationText (msgs : List Turn) : List Char :=
  msgs.foldl
    (fun acc m => acc ++ roleLabel m.role ++ (": ".toList) ++ m.content ++ ("\n".toList))
    []

/-- The loop at src/app.py lines 249-253 (EvaluationStage). -/
def evaluationConversationText (msgs : List Turn) : List Char :=
  msgs.foldl
    (fun acc m => acc ++ roleLabel m.role ++ (": ".toList) ++ m.content ++ ("\n".toList))
    []

/-! ## Event handlers

Each handler embeds one user-triggered branch of `main()`.  The gateway is
opaque: handlers that call it receive either the reply value directly
(designer, whose prompt does not depend on mutable session state we track)
or a reply oracle applied to the conversation-context text the code builds
for the call (facilitator, evaluator). -/

/-- The `Generate Scenario` branch (src/app.py lines 178-188): call the
designer, parse the reply, store scenario and rubric.  A failed call
propagates before either assignment runs, so the session is untouched. -/
def generateScenario (gw : Except GatewayError (List Char)) (s : Session) : StepOut :=
  match gw with
  | Except.error e => ⟨s, Except.error (AppError.gateway e), 1⟩
  | Except.ok textOut =>
    let p := parseDesignerResponse textOut
    ⟨{ s with scenario_output := some p.1, evaluation_rubric := some p.2 }
    , Except.ok (), 1⟩

/-- The `Submit Move` branch (src/app.py lines 214-233): reject a blank
move with no mutation; otherwise append the USER turn, build the
conversation text, call the facilitator, and append its reply.  The USER
turn is appended before the call, so a failed call leaves it in place. -/
def submitMove (gw : List Char → Except GatewayError (List Char))
    (userInput : List Char) (s : Session) : StepOut :=
  if pyStrip userInput = [] then
    ⟨s, Except.error AppError.validation, 0⟩
  else
    let s1 := { s with
      simulation_messages := s.simulation_messages ++ [Turn.mk Role.user userInput] }
    match gw (simulationConversationText s1.simulation_messages) with
    | Except.error e => ⟨s1, Except.error (AppError.gateway e), 1⟩
    | Except.ok reply =>
      ⟨{ s1 with
          simulation_messages := s1.simulation_messages ++ [Turn.mk Role.assistant reply] }
      , Except.ok (), 1⟩

/-- The `Finish and Evaluate` button (src/app.py lines 236-238): set the
finished flag; no gateway call. -/
def finishSimulation (s : Session) : StepOut :=
  ⟨{ s with simulation_finished := true }, Except.ok (), 0⟩

/-- The evaluation block (src/app.py lines 246-262): if feedback is not
yet set, build the conversation text, call the evaluator, store the reply;
otherwise do nothing.  Feedback is assigned after the call returns, so a
failed call leaves the session untouched. -/
def evaluateStage (gw : List Char → Except GatewayError (List Char))
    (s : Session) : StepOut :=
  match s.evaluation_feedback with
  | some _ => ⟨s, Except.ok (), 0⟩
  | none =>
    match gw (evaluationConversationText s.simulation_messages) with
    | Except.error e => ⟨s, Except.error (AppError.gateway e), 1⟩
    | Except.ok fb =>
      ⟨{ s with evaluation_feedback := some fb }, Except.ok (), 1⟩

/-- The `Restart Everything` button (src/app.py lines 270-275): every
session key is set back to its initial value. -/
def resetSession (_s : Session) : StepOut :=
  ⟨{ scenario_output := none
   , evaluation_rubric := none
   , simulation_messages := []
   , evaluation_feedback := none
   , simulation_finished := false }
  , Except.ok (), 0⟩

/-! ## Events and dispatch -/

/-- A user-triggered event, carrying the gateway behaviour for the one call
it may make. -/
inductive Event where
  | generate (gw : Except GatewayError (List Char))
  | submit (input : List Char) (gw : List Char → Except GatewayError (List Char))
  | finishSim
  | evalTrigger (gw : List Char → Except GatewayError (List Char))
  | reset

/-- Which events `main()` exposes in a given state: each branch of the
render function is guarded by a condition on the session keys
(src/app.py lines 170, 193, 243), and an event can only fire from a branch
that rendered.  The `Restart Everything` button sits inside the
`simulation_finished` branch (lines 243 and 270). -/
def available (s : Session) : Event → Bool
  | Event.generate _ => s.scenario_output.isNone
  | Event.submit _ _ => s.scenario_output.isSome && !s.simulation_finished
  | Event.finishSim => s.scenario_output.isSome && !s.simulation_finished
  | Event.evalTrigger _ => s.simulation_finished
  | Event.reset => s.simulation_finished

/-- Dispatch one event: a no-op when the triggering widget is not
rendered in the current state. -/
def step (s : Session) (e : Event) : StepOut :=
  if available s e then
    match e with
    | Event.generate gw => generateScenario gw s
    | Event.submit input gw => submitMove gw input s
    | Event.finishSim => finishSimulation s
    | Event.evalTrigger gw => evaluateStage gw s
    | Event.reset => resetSession s
  else
    ⟨s, Except.ok (), 0⟩

/-- Run a list of events. -/
def run (s : Session) : List Event → Session
  | [] => s
  | e :: rest => run (step s e).session rest

/-- Run a list of events, also counting gateway invocations. -/
def runCount (s : Session) : List Event → Session × Nat
  | [] => (s, 0)
  | e :: rest =>
    let o := step s e
    let r := runCount o.session rest
    (r.1, o.gwCalls + r.2)

/-- Transcript produced by a list of accepted moves, each paired with the
facilitator reply the gateway returns for it. -/
def movesTranscript : List (List Char × List Char) → List Turn
  | [] => []
  | m :: rest =>
    Turn.mk Role.user m.1 :: Turn.mk Role.assistant m.2 :: movesTranscript rest

/-- Submit-move events for a list of moves, each with a gateway that
replies successfully with the paired text. -/
def movesToEvents (moves : List (List Char × List Char)) : List Event :=
  moves.map (fun m => Event.submit m.1 (fun _ => Except.ok m.2))

/-- A concrete session just after scenario generation (SIMULATING, empty
transcript), used to instantiate theorems at concrete inputs. -/
def simSessionExample : Session :=
  { scenario_output := some ("S".toList)
  , evaluation_rubric := some ("R".toList)
  , simulation_messages := []
  , evaluation_feedback := none
  , simulation_finished := false }

/-- A concrete finished session awaiting evaluation. -/
def awaitingEvalExample : Session :=
  { scenario_output := some ("S".toList)
  , evaluation_rubric := some ("R".toList)
  , simulation_messages :=
      [Turn.mk Role.user ("hi".toList), Turn.mk Role.assistant ("ok".toList)]
  , evaluation_feedback := none
  , simulation_finished := true }

/-- A concrete finished session whose evaluation already ran. -/
def evaluatedExample : Session :=
  { scenario_output := some ("S".toList)
  , evaluation_rubric := some ("R".toList)
  , simulation_messages :=
      [Turn.mk Role.user ("hi".toList), Turn.mk Role.assistant ("ok".toList)]
  , evaluation_feedback := some ("fb".toList)
  , simulation_finished := true }

/-! ## Lemmas about the string primitives -/

lemma startsWithSeq_eq_append :
    ∀ p s : List Char, startsWithSeq p s = true → s = p ++ s.drop p.length := by
  intro p
  induction p with
  | nil => intro s _; simp
  | cons x ps ih =>
    intro s h
    cases s with
    | nil => simp [startsWithSeq] at h
    | cons c cs =>
      simp only [startsWithSeq] at h
      by_cases hx : x = c
      · subst hx
        simp only [if_pos rfl] at h
        have := ih cs h
        simpa [List.length_cons] using this
      · simp [if_neg hx] at h

lemma startsWithSeq_length {p s : List Char} (h : startsWithSeq p s = true) :
    p.length ≤ s.length := by
  have := startsWithSeq_eq_append p s h
  have hl := congrArg List.length this
  simp [List.length_append] at hl
  omega

/-- Shift the first-occurrence scan across a leading character. -/
lemma firstOcc_cons (pat : List Char) (c : Char) (rest : List Char) :
    firstOcc? pat (c :: rest) =
      if occursAt pat (c :: rest) 0 then some 0
      else (firstOcc? pat rest).map (fun i => i + 1) := by
  unfold firstOcc?
  by_cases h0 : occursAt pat (c :: rest) 0 = true
  · rw [if_pos h0]
    have hr : List.range (c :: rest).length = 0 :: (List.range rest.length).map Nat.succ := by
      simp [List.length_cons, List.range_succ_eq_map]
    rw [hr, List.find?_cons_of_pos _ h0]
  · rw [if_neg h0]
    have hr : List.range (c :: rest).length = 0 :: (List.range rest.length).map Nat.succ := by
      simp [List.length_cons, List.range_succ_eq_map]
    rw [hr, List.find?_cons_of_neg _ h0]
    have hshift : ∀ l : List Nat,
        (l.map Nat.succ).find? (occursAt pat (c :: rest))
          = (l.find? (occursAt pat rest)).map Nat.succ := by
      intro l
      induction l with
      | nil => rfl
      | cons a as iha =>
        have hdrop : occursAt pat (c :: rest) (a + 1) = occursAt pat rest a := rfl
        by_cases ha : occursAt pat rest a = true
        · simp only [List.map_cons]
          rw [List.find?_cons_of_pos _ (by rw [Nat.succ_eq_add_one, hdrop]; exact ha),
            List.find?_cons_of_pos _ ha]
          rfl
        · simp only [List.map_cons]
          rw [List.find?_cons_of_neg _ (by rw [Nat.succ_eq_add_one, hdrop]; simpa using ha),
            List.find?_cons_of_neg _ (by simpa using ha), iha]
    rw [hshift]

/-- `findSplit` splits exactly at the first occurrence of the pattern. -/
lemma findSplit_eq_firstOcc (pat : List Char) :
    ∀ s : List Char,
      findSplit pat s =
        (firstOcc? pat s).map (fun i => (s.take i, s.drop (i + pat.length))) := by
  intro s
  induction s with
  | nil => simp [findSplit, firstOcc?]
  | cons c rest ih =>
    rw [firstOcc_cons]
    by_cases h0 : occursAt pat (c :: rest) 0 = true
    · rw [if_pos h0]
      have hsw : startsWithSeq pat (c :: rest) = true := h0
      simp [findSplit, hsw]
    · rw [if_neg h0]
      have hsw : startsWithSeq pat (c :: rest) = false := by
        simpa [occursAt] using h0
      simp only [findSplit, hsw, Bool.false_eq_true, if_false]
      rw [ih]
      cases hfo : firstOcc? pat rest with
      | none => rfl
      | some j =>
        have ht : (c :: rest).take (j + 1) = c :: rest.take j := rfl
        have hd : (c :: rest).drop (j + 1 + pat.length) = rest.drop (j + pat.length) := by
          have he : j + 1 + pat.length = (j + pat.length) + 1 := by omega
          rw [he]
          rfl
        simp only [Option.map_some', ht, hd]

/-- A successful `findSplit` decomposes the string. -/
lemma findSplit_some_append (pat : List Char) :
    ∀ s b a : List Char, findSplit pat s = some (b, a) → s = b ++ pat ++ a := by
  intro s
  induction s with
  | nil => intro b a h; simp [findSplit] at h
  | cons c rest ih =>
    intro b a h
    by_cases hsw : startsWithSeq pat (c :: rest) = true
    · rw [findSplit, if_pos hsw] at h
      simp only [Option.some.injEq, Prod.mk.injEq] at h
      obtain ⟨hb, ha⟩ := h
      subst hb
      subst ha
      simpa using startsWithSeq_eq_append pat (c :: rest) hsw
    · rw [findSplit, if_neg hsw] at h
      cases hfs : findSplit pat rest with
      | none => rw [hfs] at h; simp at h
      | some q =>
        obtain ⟨b', a'⟩ := q
        rw [hfs] at h
        simp only [Option.some.injEq, Prod.mk.injEq] at h
        obtain ⟨hb, ha⟩ := h
        subst hb
        subst ha
        have hrest := ih b' a' hfs
        simp [hrest]

/-- Head of the fuel-driven split, for sufficient fuel. -/
lemma splitOnAux_head (pat : List Char) :
    ∀ (f : Nat) (s : List Char), s.length ≤ f →
      (splitOnAux pat f s).getD 0 [] =
        (match findSplit pat s with
         | none => s
         | some q => q.1) := by
  intro f
  cases f with
  | zero =>
    intro s hs
    have : s = [] := by
      cases s with
      | nil => rfl
      | cons c cs => simp [List.length_cons] at hs
    subst this
    simp [splitOnAux, findSplit]
  | succ g =>
    intro s _
    rw [splitOnAux]
    cases hfs : findSplit pat s with
    | none => simp
    | some q => simp

/-- The first two entries of `pySplit`, in terms of `findSplit`. -/
lemma pySplit_parts (pat : List Char) (hpat : pat ≠ []) (s b a : List Char)
    (h : findSplit pat s = some (b, a)) :
    (pySplit s pat).getD 0 [] = b ∧
    (pySplit s pat).getD 1 [] =
      (match findSplit pat a with
       | none => a
       | some q => q.1) := by
  have hs : s = b ++ pat ++ a := findSplit_some_append pat s b a h
  have hplen : 0 < pat.length := List.length_pos.mpr hpat
  cases s with
  | nil => simp [findSplit] at h
  | cons c rest =>
    have hlen : rest.length + 1 = b.length + pat.length + a.length := by
      have := congrArg List.length hs
      simp [List.length_append, List.length_cons] at this
      omega
    have hfuel : a.length ≤ rest.length := by omega
    have hps : pySplit (c :: rest) pat
        = b :: splitOnAux pat rest.length a := by
      unfold pySplit
      rw [List.length_cons, splitOnAux, h]
    constructor
    · rw [hps]
      exact List.getD_cons_zero
    · rw [hps, List.getD_cons_succ]
      exact splitOnAux_head pat rest.length a hfuel

/-- `pyContains` holds exactly when the positional scan finds an
occurrence. -/
lemma pyContains_eq_firstOcc (s pat : List Char) :
    pyContains s pat = (firstOcc? pat s).isSome := by
  unfold pyContains
  rw [findSplit_eq_firstOcc]
  cases firstOcc? pat s <;> rfl

lemma findSplit_head_eq_firstOcc (pat r : List Char) :
    (match findSplit pat r with
     | none => r
     | some q => q.1)
      = (match firstOcc? pat r with
         | none => r
         | some j => r.take j) := by
  rw [findSplit_eq_firstOcc]
  cases firstOcc? pat r <;> rfl

/-! ## Claim C1 -/

/-- C1, counterexample.  The claim reads the parse as taking the whole text
after the delimiter and stripping only a leading SCENARIO label, which at
this input would give the pair
`("A SCENARIO: B", "C EVALUATION_RUBRIC: D")`; the code instead removes
every occurrence of the label from the part before the first delimiter and
takes only the segment between the first and second delimiter, producing
`("A  B", "C")`. -/
theorem C1_counterexample :
    parseDesignerResponse
        ("SCENARIO: A SCENARIO: B EVALUATION_RUBRIC: C EVALUATION_RUBRIC: D".toList)
      ≠ ("A SCENARIO: B".toList, "C EVALUATION_RUBRIC: D".toList) := by
  decide

/-- C1, amended: if the delimiter occurs in the designer response, the
parse returns as scenario part the text before the first occurrence with
every occurrence of the SCENARIO label removed and the result trimmed, and
as rubric part the text strictly between the first occurrence and the next
one after it (to the end of the text when there is no later occurrence),
trimmed; if the delimiter is absent, it returns the whole trimmed response
paired with the sentinel string.  The occurrence positions are
characterised independently by the index scan `firstOcc?`. -/
theorem C1_parse_designer_response (s : List Char) :
    (match firstOcc? rubricDelim s with
     | none => parseDesignerResponse s = (pyStrip s, noRubricSentinel)
     | some i =>
         parseDesignerResponse s =
           (pyStrip (pyReplace (s.take i) scenarioLabel []),
            pyStrip
              (match firstOcc? rubricDelim (s.drop (i + rubricDelim.length)) with
               | none => s.drop (i + rubricDelim.length)
               | some j => (s.drop (i + rubricDelim.length)).take j))) := by
  have hpat : rubricDelim ≠ [] := by decide
  cases h : firstOcc? rubricDelim s with
  | none =>
    have hc : pyContains s rubricDelim = false := by
      rw [pyContains_eq_firstOcc, h]
      rfl
    simp [parseDesignerResponse, hc]
  | some i =>
    have hfs : findSplit rubricDelim s
        = some (s.take i, s.drop (i + rubricDelim.length)) := by
      rw [findSplit_eq_firstOcc, h]
      rfl
    have hc : pyContains s rubricDelim = true := by
      rw [pyContains_eq_firstOcc, h]
      rfl
    obtain ⟨h0, h1⟩ := pySplit_parts rubricDelim hpat s _ _ hfs
    rw [findSplit_head_eq_firstOcc] at h1
    simp only [parseDesignerResponse, hc, if_true]
    rw [h0, h1]

/-! ## Lemmas about the event handlers -/

/-- One accepted move with a successful reply appends exactly the USER
turn followed by the FACILITATOR turn. -/
lemma step_submit_ok (s : Session) (u r : List Char)
    (h1 : s.scenario_output.isSome = true) (h2 : s.simulation_finished = false)
    (h3 : ¬ pyStrip u = []) :
    step s (Event.submit u (fun _ => Except.ok r))
      = ⟨{ s with simulation_messages :=
            s.simulation_messages
              ++ [Turn.mk Role.user u, Turn.mk Role.assistant r] }
        , Except.ok (), 1⟩ := by
  simp [step, available, h1, h2, submitMove, h3]

/-! ## Claim C2 -/

/-- C2, counterexample.  From a freshly generated scenario, a submit-move
event whose facilitator call fails does not leave the session as it was:
the USER turn was appended before the call and stays. -/
theorem C2_counterexample :
    ¬ ((step simSessionExample
          (Event.submit ("hi".toList)
            (fun _ => Except.error GatewayError.timeout))).session
        = simSessionExample) := by
  decide

/-- C2, amended: a failed designer call and a failed evaluator call leave
the session exactly as it was before the call (in particular scenario and
rubric stay paired), but a failed facilitator call during submit-move
leaves every field except the transcript unchanged while the lone USER
turn appended before the call remains. -/
theorem C2_failure_atomicity :
    (∀ (s : Session) (err : GatewayError),
        (step s (Event.generate (Except.error err))).session = s) ∧
    (∀ (s : Session) (gw : List Char → Except GatewayError (List Char))
        (err : GatewayError),
        gw (evaluationConversationText s.simulation_messages)
          = Except.error err →
        (step s (Event.evalTrigger gw)).session = s) ∧
    (∀ (s : Session) (input : List Char)
        (gw : List Char → Except GatewayError (List Char))
        (err : GatewayError),
        s.scenario_output.isSome = true → s.simulation_finished = false →
        ¬ pyStrip input = [] →
        gw (simulationConversationText
              (s.simulation_messages ++ [Turn.mk Role.user input]))
          = Except.error err →
        (step s (Event.submit input gw)).session
          = { s with simulation_messages :=
                s.simulation_messages ++ [Turn.mk Role.user input] }) := by
  refine ⟨?_, ?_, ?_⟩
  · intro s err
    by_cases ha : available s (Event.generate (Except.error err)) = true
    · simp [step, ha, generateScenario]
    · simp [step, ha]
  · intro s gw err hgw
    by_cases ha : available s (Event.evalTrigger gw) = true
    · cases hf : s.evaluation_feedback with
      | some fb => simp [step, ha, evaluateStage, hf]
      | none => simp [step, ha, evaluateStage, hf, hgw]
    · simp [step, ha]
  · intro s input gw err h1 h2 h3 hgw
    simp [step, available, h1, h2, submitMove, h3, hgw]

/-- C2, witness at concrete inputs: a failing evaluator call on a
finished session changes nothing, and a failing facilitator call on a
fresh simulation leaves exactly the lone USER turn. -/
theorem C2_witness :
    ((step awaitingEvalExample
        (Event.evalTrigger (fun _ => Except.error GatewayError.timeout))).session
      = awaitingEvalExample) ∧
    ((step simSessionExample
        (Event.submit ("hi".toList)
          (fun _ => Except.error GatewayError.timeout))).session
      = { simSessionExample with simulation_messages :=
            simSessionExample.simulation_messages
              ++ [Turn.mk Role.user ("hi".toList)] }) :=
  ⟨C2_failure_atomicity.2.1 awaitingEvalExample _ GatewayError.timeout rfl,
   C2_failure_atomicity.2.2 simSessionExample ("hi".toList) _ GatewayError.timeout
     rfl rfl (by decide) rfl⟩

/-! ## Claim C3 -/

lemma movesTranscript_length (moves : List (List Char × List Char)) :
    (movesTranscript moves).length = 2 * moves.length := by
  induction moves with
  | nil => rfl
  | cons m rest ih =>
    simp only [movesTranscript, List.length_cons, ih]
    omega

/-- Accepted moves with successful replies extend the transcript by one
USER and one FACILITATOR turn each, in submission order. -/
lemma run_submits (moves : List (List Char × List Char)) :
    ∀ s : Session, s.scenario_output.isSome = true →
      s.simulation_finished = false →
      (∀ m ∈ moves, ¬ pyStrip m.1 = []) →
      run s (movesToEvents moves)
        = { s with simulation_messages :=
              s.simulation_messages ++ movesTranscript moves } := by
  induction moves with
  | nil =>
    intro s _ _ _
    simp [movesToEvents, run, movesTranscript]
  | cons m rest ih =>
    intro s h1 h2 hval
    have hm : ¬ pyStrip m.1 = [] := hval m (by simp)
    have hrest : ∀ x ∈ rest, ¬ pyStrip x.1 = [] :=
      fun x hx => hval x (by simp [hx])
    show run s (Event.submit m.1 (fun _ => Except.ok m.2) :: movesToEvents rest)
        = { s with simulation_messages :=
              s.simulation_messages ++ movesTranscript (m :: rest) }
    rw [run, step_submit_ok s m.1 m.2 h1 h2 hm]
    dsimp only
    rw [ih { s with simulation_messages :=
          s.simulation_messages
            ++ [Turn.mk Role.user m.1, Turn.mk Role.assistant m.2] }
        h1 h2 hrest]
    simp [movesTranscript, List.append_assoc]

/-- C3: starting a simulation, a sequence of accepted (non-blank) moves
with successful gateway replies produces a transcript that is exactly one
USER turn followed by one FACILITATOR turn per move, in submission order,
with length twice the number of moves; and no SimulationStage operation
(submit-move or finish) ever removes or reorders existing turns: each only
appends. -/
theorem C3_transcript_shape :
    (∀ (s : Session) (moves : List (List Char × List Char)),
        s.scenario_output.isSome = true → s.simulation_finished = false →
        s.simulation_messages = [] →
        (∀ m ∈ moves, ¬ pyStrip m.1 = []) →
        (run s (movesToEvents moves)).simulation_messages
            = movesTranscript moves ∧
        (run s (movesToEvents moves)).simulation_messages.length
            = 2 * moves.length) ∧
    (∀ (s : Session) (input : List Char)
        (gw : List Char → Except GatewayError (List Char)),
        ∃ t, (step s (Event.submit input gw)).session.simulation_messages
          = s.simulation_messages ++ t) ∧
    (∀ s : Session,
        (step s Event.finishSim).session.simulation_messages
          = s.simulation_messages) := by
  refine ⟨?_, ?_, ?_⟩
  · intro s moves h1 h2 h3 hval
    rw [run_submits moves s h1 h2 hval]
    constructor
    · simp [h3]
    · simp [h3, movesTranscript_length]
  · intro s input gw
    by_cases ha : available s (Event.submit input gw) = true
    · by_cases hb : pyStrip input = []
      · exact ⟨[], by simp [step, ha, submitMove, hb]⟩
      · simp only [step, ha, if_true, submitMove, hb, if_false]
        cases hgw : gw (simulationConversationText
            (s.simulation_messages ++ [Turn.mk Role.user input])) with
        | error e => exact ⟨[Turn.mk Role.user input], by simp [hgw]⟩
        | ok r =>
          exact ⟨[Turn.mk Role.user input, Turn.mk Role.assistant r],
            by simp [hgw]⟩
    · exact ⟨[], by simp [step, ha]⟩
  · intro s
    by_cases ha : available s Event.finishSim = true
    · simp [step, ha, finishSimulation]
    · simp [step, ha]

/-- C3, witness: two concrete accepted moves from a fresh simulation give
the four expected turns, and a concrete submit appends to a nonempty
transcript. -/
theorem C3_witness :
    ((run simSessionExample
        (movesToEvents [("a".toList, "b".toList), ("c".toList, "d".toList)])).simulation_messages
      = movesTranscript [("a".toList, "b".toList), ("c".toList, "d".toList)] ∧
     (run simSessionExample
        (movesToEvents [("a".toList, "b".toList), ("c".toList, "d".toList)])).simulation_messages.length
      = 2 * [("a".toList, "b".toList), ("c".toList, "d".toList)].length) ∧
    (∃ t, (step awaitingEvalExample
            (Event.submit ("x".toList) (fun _ => Except.ok ("y".toList)))).session.simulation_messages
        = awaitingEvalExample.simulation_messages ++ t) :=
  ⟨C3_transcript_shape.1 simSessionExample _ rfl rfl rfl (by decide),
   C3_transcript_shape.2.1 awaitingEvalExample ("x".toList) _⟩

/-! ## Claim C4 -/

/-- C4: an empty or whitespace-only move is rejected with the validation
outcome, the session (transcript included) is returned untouched, and the
gateway is not invoked. -/
theorem C4_blank_move_rejected (s : Session) (input : List Char)
    (gw : List Char → Except GatewayError (List Char))
    (h : pyStrip input = []) :
    submitMove gw input s = ⟨s, Except.error AppError.validation, 0⟩ := by
  simp [submitMove, h]

/-- C4, witness: submitting three spaces changes nothing and makes no
gateway call. -/
theorem C4_witness :
    submitMove (fun _ => Except.ok ("r".toList)) ("   ".toList) simSessionExample
      = ⟨simSessionExample, Except.error AppError.validation, 0⟩ :=
  C4_blank_move_rejected simSessionExample ("   ".toList) _ (by decide)

/-! ## Claim C5 -/

/-- Once feedback is set, further evaluation triggers change nothing and
make no gateway call. -/
lemma evalTrigger_noop (gws : List (List Char → Except GatewayError (List Char))) :
    ∀ s : Session, s.evaluation_feedback.isSome = true →
      runCount s (gws.map Event.evalTrigger) = (s, 0) := by
  induction gws with
  | nil => intro s _; rfl
  | cons gw rest ih =>
    intro s hs
    obtain ⟨fb, hfb⟩ := Option.isSome_iff_exists.mp hs
    have hstep : step s (Event.evalTrigger gw) = ⟨s, Except.ok (), 0⟩ := by
      by_cases ha : available s (Event.evalTrigger gw) = true
      · simp [step, ha, evaluateStage, hfb]
      · simp [step, ha]
    show runCount s (Event.evalTrigger gw :: rest.map Event.evalTrigger) = (s, 0)
    rw [runCount, hstep]
    dsimp only
    rw [ih s hs]
    simp

/-- C5: in the FINISHED state with no feedback yet, triggering the
evaluation once and then any number of further times makes exactly one
gateway invocation in total and writes the feedback exactly once; every
later trigger leaves the session unchanged. -/
theorem C5_evaluation_idempotent (s : Session) (fb : List Char)
    (gw1 : List Char → Except GatewayError (List Char))
    (gws : List (List Char → Except GatewayError (List Char)))
    (h1 : s.simulation_finished = true) (h2 : s.evaluation_feedback = none)
    (h3 : gw1 (evaluationConversationText s.simulation_messages) = Except.ok fb) :
    runCount s (Event.evalTrigger gw1 :: gws.map Event.evalTrigger)
      = ({ s with evaluation_feedback := some fb }, 1) := by
  have hstep : step s (Event.evalTrigger gw1)
      = ⟨{ s with evaluation_feedback := some fb }, Except.ok (), 1⟩ := by
    simp [step, available, h1, evaluateStage, h2, h3]
  rw [runCount, hstep]
  dsimp only
  rw [evalTrigger_noop gws { s with evaluation_feedback := some fb } rfl]
  simp

/-- C5, witness: a finished session awaiting evaluation, one successful
trigger followed by another trigger: one call, one write. -/
theorem C5_witness :
    runCount awaitingEvalExample
        (Event.evalTrigger (fun _ => Except.ok ("fb".toList))
          :: [fun _ => Except.ok ("zz".toList)].map Event.evalTrigger)
      = ({ awaitingEvalExample with evaluation_feedback := some ("fb".toList) }, 1) :=
  C5_evaluation_idempotent awaitingEvalExample ("fb".toList) _ _ rfl rfl rfl

/-! ## Claim C6 -/

/-- C6, counterexample.  In the initial SETUP state the restart button is
not rendered: the RESET event is not available from every state. -/
theorem C6_counterexample :
    ¬ (available initialSession Event.reset = true) := by
  decide

/-- C6, amended: the RESET event is available exactly in the FINISHED
states (the restart button is rendered inside the finished branch), and
when triggered there it restores every session field to its initial value
in one step — returning the controller to SETUP — with no gateway call. -/
theorem C6_reset_behaviour (s : Session) :
    available s Event.reset = s.simulation_finished ∧
    (s.simulation_finished = true →
      step s Event.reset = ⟨initialSession, Except.ok (), 0⟩) := by
  constructor
  · rfl
  · intro h
    simp [step, available, h, resetSession, initialSession]

/-- C6, witness: resetting a concrete evaluated session restores the
initial session. -/
theorem C6_witness :
    step evaluatedExample Event.reset = ⟨initialSession, Except.ok (), 0⟩ :=
  (C6_reset_behaviour evaluatedExample).2 rfl

/-! ## Claim C7 -/

/-- Every event preserves the paired-null relation between rubric and
scenario. -/
lemma step_preserves_paired (s : Session) (e : Event)
    (h : s.evaluation_rubric.isSome = s.scenario_output.isSome) :
    (step s e).session.evaluation_rubric.isSome
      = (step s e).session.scenario_output.isSome := by
  by_cases ha : available s e = true
  · cases e with
    | generate gw =>
      cases gw with
      | error err => simpa [step, ha, generateScenario] using h
      | ok t => simp [step, ha, generateScenario]
    | submit input gw =>
      by_cases hb : pyStrip input = []
      · simpa [step, ha, submitMove, hb] using h
      · simp only [step, ha, if_true, submitMove, hb, if_false]
        cases hgw : gw (simulationConversationText
            (s.simulation_messages ++ [Turn.mk Role.user input])) with
        | error e2 => simpa using h
        | ok r => simpa using h
    | finishSim => simpa [step, ha, finishSimulation] using h
    | evalTrigger gw =>
      cases hf : s.evaluation_feedback with
      | some fb => simpa [step, ha, evaluateStage, hf] using h
      | none =>
        cases hgw : gw (evaluationConversationText s.simulation_messages) with
        | error e2 => simpa [step, ha, evaluateStage, hf, hgw] using h
        | ok fb => simpa [step, ha, evaluateStage, hf, hgw] using h
    | reset => simp [step, ha, resetSession]
  · simpa [step, ha] using h

lemma run_preserves_paired :
    ∀ (evs : List Event) (s : Session),
      s.evaluation_rubric.isSome = s.scenario_output.isSome →
      (run s evs).evaluation_rubric.isSome
        = (run s evs).scenario_output.isSome := by
  intro evs
  induction evs with
  | nil => intro s h; exact h
  | cons e rest ih =>
    intro s h
    exact ih (step s e).session (step_preserves_paired s e h)

/-- C7: in every reachable session state the rubric is non-null exactly
when the scenario is non-null — every event either sets both (scenario
generation), clears both (reset), or touches neither. -/
theorem C7_paired_rubric_scenario (evs : List Event) :
    (run initialSession evs).evaluation_rubric.isSome
      = (run initialSession evs).scenario_output.isSome :=
  run_preserves_paired evs initialSession rfl

/-! ## Claim C8 -/

lemma conversation_foldl_join (msgs : List Turn) :
    ∀ acc : List Char,
      List.foldl
        (fun acc m =>
          acc ++ roleLabel m.role ++ (": ".toList) ++ m.content ++ ("\n".toList))
        acc msgs
      = acc
        ++ (msgs.map
              (fun m =>
                roleLabel m.role ++ (": ".toList) ++ m.content ++ ("\n".toList))).flatten := by
  induction msgs with
  | nil => intro acc; simp
  | cons m rest ih =>
    intro acc
    simp only [List.foldl_cons, List.map_cons, List.flatten, ih]
    simp [List.append_assoc]

/-- C8: the conversation-context text the evaluation block assembles is
identical to the one the simulation block assembles for the same
transcript, and both equal the concatenation, in transcript order, of one
line per turn of the form role label, colon, space, content, newline. -/
theorem C8_conversation_assembly_equal (msgs : List Turn) :
    evaluationConversationText msgs = simulationConversationText msgs ∧
    simulationConversationText msgs
      = (msgs.map
          (fun m =>
            roleLabel m.role ++ (": ".toList) ++ m.content ++ ("\n".toList))).flatten := by
  refine ⟨rfl, ?_⟩
  unfold simulationConversationText
  simpa using conversation_foldl_join msgs []

/-! ## Claim C9 -/

/-- C9: an accepted move (non-empty after stripping) is stored verbatim —
the USER turn appended to the transcript carries the submitted string with
all its whitespace; stripping is used only for the blank check, never for
storage.  This holds whether or not the facilitator call succeeds. -/
theorem C9_move_stored_verbatim (s : Session) (input : List Char)
    (gw : List Char → Except GatewayError (List Char))
    (h : ¬ pyStrip input = []) :
    ∃ t, (submitMove gw input s).session.simulation_messages
      = s.simulation_messages ++ Turn.mk Role.user input :: t := by
  simp only [submitMove, h, if_false]
  cases hgw : gw (simulationConversationText
      (s.simulation_messages ++ [Turn.mk Role.user input])) with
  | error e => exact ⟨[], by simp⟩
  | ok r => exact ⟨[Turn.mk Role.assistant r], by simp⟩

/-- C9, witness: a move with surrounding whitespace is stored with that
whitespace intact. -/
theorem C9_witness :
    ∃ t, (submitMove (fun _ => Except.ok ("ok".toList)) ("  hi  ".toList)
            simSessionExample).session.simulation_messages
      = simSessionExample.simulation_messages
          ++ Turn.mk Role.user ("  hi  ".toList) :: t :=
  C9_move_stored_verbatim simSessionExample ("  hi  ".toList) _ (by decide)

/-! ## Claim C10 -/

/-- C10: from a simulation with an empty transcript, the finish event is
accepted, sets the finished flag with no gateway call and no other field
change; the following evaluation trigger then invokes the gateway exactly
once, with the empty conversation-context string, and stores its reply. -/
theorem C10_finish_with_empty_transcript (s : Session) (fb : List Char)
    (gw : List Char → Except GatewayError (List Char))
    (h1 : s.scenario_output.isSome = true) (h2 : s.simulation_finished = false)
    (h3 : s.simulation_messages = []) (h4 : s.evaluation_feedback = none)
    (h5 : gw [] = Except.ok fb) :
    available s Event.finishSim = true ∧
    step s Event.finishSim
      = ⟨{ s with simulation_finished := true }, Except.ok (), 0⟩ ∧
    evaluationConversationText s.simulation_messages = [] ∧
    step { s with simulation_finished := true } (Event.evalTrigger gw)
      = ⟨{ s with simulation_finished := true, evaluation_feedback := some fb }
        , Except.ok (), 1⟩ := by
  have ha : available s Event.finishSim = true := by
    simp [available, h1, h2]
  have hctx : evaluationConversationText s.simulation_messages = [] := by
    rw [h3]
    rfl
  refine ⟨ha, ?_, hctx, ?_⟩
  · simp [step, ha, finishSimulation]
  · have hgw : gw (evaluationConversationText s.simulation_messages)
        = Except.ok fb := by rw [hctx, h5]
    simp [step, available, evaluateStage, h4, hgw]

/-- C10, witness: finishing the fresh simulation session with zero moves
and then evaluating makes exactly one call on the empty context. -/
theorem C10_witness :
    available simSessionExample Event.finishSim = true ∧
    step simSessionExample Event.finishSim
      = ⟨{ simSessionExample with simulation_finished := true }
        , Except.ok (), 0⟩ ∧
    evaluationConversationText simSessionExample.simulation_messages = [] ∧
    step { simSessionExample with simulation_finished := true }
        (Event.evalTrigger (fun _ => Except.ok ("fb".toList)))
      = ⟨{ simSessionExample with
            simulation_finished := true
          , evaluation_feedback := some ("fb".toList) }
        , Except.ok (), 1⟩ :=
  C10_finish_with_empty_transcript simSessionExample ("fb".toList) _
    rfl rfl rfl rfl rfl
